import Mathlib

/-!
Shallow embedding of the core of `latencee` (src/main.rs), a terminal
network-latency monitor, together with proofs of its specified properties.

Modelling conventions:
  * `Duration` and `Instant` values are modelled as natural numbers of
    nanoseconds (Rust `Duration` stores nanosecond precision; `Instant`
    arithmetic is at nanosecond granularity on all supported platforms).
  * `Instant - Duration` is modelled by truncated `Nat` subtraction.
  * The `VecDeque<(Instant, ConnectionStatus)>` history is a
    `List (Nat × ConnectionStatus)`, front of the deque = head of the list.
  * `draw_graph` computes a column index by `f64` division
    `elapsed.as_secs_f64() / time_per_char.as_secs_f64()` truncated with
    `as usize`.  Both operands are nanosecond-integer-valued durations and
    `time_per_char` is exactly 10 s (600 s / 60), so the mathematical value
    of the quotient is `elapsed_ns / 10^10`, a rational with nanosecond
    granularity: its distance to any integer it does not equal is at least
    1e-10 in quotient units, while the accumulated rounding error of the
    two `f64` roundings is below 1e-13 for every elapsed time below 2^63 ns.
    The truncation therefore agrees exactly with integer floor division,
    and the column is embedded as `Nat` division `elapsed / timePerCharNs`.
-/

/-- Rust `const GRAPH_WIDTH: usize = 60`. -/
def GRAPH_WIDTH : Nat := 60

/-- Rust `const GRAPH_HISTORY_MINUTES: usize = 10`. -/
def GRAPH_HISTORY_MINUTES : Nat := 10

/-- The retention / graph window `Duration::from_secs(GRAPH_HISTORY_MINUTES * 60)`
in nanoseconds. -/
def graphHistoryNs : Nat := GRAPH_HISTORY_MINUTES * 60 * 1000000000

/-- Rust `time_per_char = Duration::from_secs(600) / GRAPH_WIDTH as u32`
(exact nanosecond division: 600 s / 60 = 10 s). -/
def timePerCharNs : Nat := graphHistoryNs / GRAPH_WIDTH

/-- Rust `enum ConnectionStatus { Good, Fair, Poor, Timeout }`. -/
inductive ConnectionStatus where
  | Good
  | Fair
  | Poor
  | Timeout
deriving DecidableEq, Repr

/-- The glyph `draw_graph` writes into the graph line for each status
(the `match status` at src/main.rs:138-143). -/
def ConnectionStatus.glyph : ConnectionStatus → Char
  | .Good => '●'
  | .Fair => '◐'
  | .Poor => '◑'
  | .Timeout => '○'

/-- One history sample `(Instant, ConnectionStatus)`, timestamp in ns. -/
abbrev Sample := Nat × ConnectionStatus

/-- Rust `struct ServerStatus` with times in ns and the history deque as a list. -/
structure ServerStatus where
  name : String
  latency : Option Nat
  last_update : Nat
  status : ConnectionStatus
  history : List Sample
deriving DecidableEq, Repr

/-- Rust `classify_latency` (src/main.rs:76-83); latency in nanoseconds,
thresholds `Duration::from_millis {50, 150, 500}`. -/
def classify_latency (latency : Option Nat) : ConnectionStatus :=
  match latency with
  | some lat =>
    if lat < 50000000 then ConnectionStatus.Good
    else if lat < 150000000 then ConnectionStatus.Fair
    else if lat < 500000000 then ConnectionStatus.Poor
    else ConnectionStatus.Timeout
  | none => ConnectionStatus.Timeout

/-- The eviction loop of `monitor_server` (src/main.rs:98-104):
`while let Some((timestamp, _)) = history.front() { if *timestamp < cutoff
{ history.pop_front(); } else { break; } }`. -/
def evictOld (cutoff : Nat) : List Sample → List Sample
  | [] => []
  | (ts, s) :: rest =>
    if ts < cutoff then evictOld cutoff rest else (ts, s) :: rest

/-- One append-and-evict step of `monitor_server` (src/main.rs:93-104):
push the new sample to the back, then evict from the front everything
older than `now - retention window`. -/
def appendSample (window : Nat) (buf : List Sample) (now : Nat)
    (status : ConnectionStatus) : List Sample :=
  evictOld (now - window) (buf ++ [(now, status)])

/-- Run a whole sequence of append-and-evict steps starting from the empty
buffer `monitor_server` allocates at src/main.rs:86. -/
def runAppends (window : Nat) (apps : List Sample) : List Sample :=
  apps.foldl (fun buf p => appendSample window buf p.1 p.2) []

/-- The `ServerStatus` snapshot one iteration of `monitor_server` builds and
sends (src/main.rs:89-112), given the probe result and the current time. -/
def monitorSnapshot (name : String) (history : List Sample)
    (probeResult : Option Nat) (now : Nat) : ServerStatus :=
  let status := classify_latency probeResult
  let history' := appendSample graphHistoryNs history now status
  { name := name, latency := probeResult, last_update := now,
    status := status, history := history' }

/-- Outcome of one iteration of the `monitor_server` loop: either continue
with the updated history, or leave the loop. -/
inductive MonitorStep where
  | cont (history : List Sample)
  | exit
deriving DecidableEq, Repr

/-- One iteration of the `monitor_server` loop body (src/main.rs:88-119):
probe, classify, append-and-evict, send the snapshot; `sendOk` is whether
`sender.send(..).await` succeeded (`is_err()` negated).  `break` is the
only way out of the loop, taken exactly when the send fails; the function
then returns normally (no panic, no error value). -/
def monitorIteration (name : String) (history : List Sample)
    (probeResult : Option Nat) (now : Nat) (sendOk : Bool) : MonitorStep :=
  let snap := monitorSnapshot name history probeResult now
  if sendOk then MonitorStep.cont snap.history else MonitorStep.exit

/-- The initial `ServerStatus` built for each target at startup
(src/main.rs:256-264). -/
def initialStatus (name : String) (now : Nat) : ServerStatus :=
  { name := name, latency := none, last_update := now,
    status := ConnectionStatus.Timeout, history := [] }

/-- The aggregator's treatment of one drained snapshot (src/main.rs:286-290):
find the first status with the same name and replace it wholesale; if none
matches, do nothing. -/
def applySnapshot (statuses : List ServerStatus) (snap : ServerStatus) :
    List ServerStatus :=
  match statuses.findIdx? (fun s => s.name == snap.name) with
  | some i => statuses.set i snap
  | none => statuses

/-- The per-sample update of the graph array inside `draw_graph`'s `for`
loop (src/main.rs:133-146). -/
def drawStep (start_time : Nat) (graph : List Char) (p : Sample) : List Char :=
  if start_time ≤ p.1 then
    if (p.1 - start_time) / timePerCharNs < GRAPH_WIDTH then
      graph.set ((p.1 - start_time) / timePerCharNs) p.2.glyph
    else graph
  else graph

/-- Rust `draw_graph` (src/main.rs:122-149) with the ambient `Instant::now()`
made an explicit parameter; result as a list of glyph characters. -/
def draw_graph (now : Nat) (history : List Sample) : List Char :=
  if history.isEmpty then List.replicate GRAPH_WIDTH ' '
  else
    let start_time := now - graphHistoryNs
    history.foldl (drawStep start_time) (List.replicate GRAPH_WIDTH ' ')

/-- A sample qualifies for column `j` of the graph drawn at time `now` when
its timestamp is on or after the window start and its bucket is `j`. -/
def hitsColumn (start_time j : Nat) (p : Sample) : Bool :=
  start_time ≤ p.1 && (p.1 - start_time) / timePerCharNs == j

/- ===================== helper lemmas ===================== -/

theorem drawStep_hit (start_time : Nat) (g : List Char) (p : Sample)
    (h1 : start_time ≤ p.1)
    (h2 : (p.1 - start_time) / timePerCharNs < GRAPH_WIDTH) :
    drawStep start_time g p =
      g.set ((p.1 - start_time) / timePerCharNs) p.2.glyph := by
  unfold drawStep
  rw [if_pos h1, if_pos h2]

theorem drawStep_far (start_time : Nat) (g : List Char) (p : Sample)
    (h1 : ¬ start_time ≤ p.1) :
    drawStep start_time g p = g := by
  unfold drawStep
  rw [if_neg h1]

theorem drawStep_wide (start_time : Nat) (g : List Char) (p : Sample)
    (h1 : start_time ≤ p.1)
    (h2 : ¬ (p.1 - start_time) / timePerCharNs < GRAPH_WIDTH) :
    drawStep start_time g p = g := by
  unfold drawStep
  rw [if_pos h1, if_neg h2]

theorem drawStep_length (start_time : Nat) (g : List Char) (p : Sample) :
    (drawStep start_time g p).length = g.length := by
  unfold drawStep
  by_cases h1 : start_time ≤ p.1 <;> simp [h1]
  split <;> simp

theorem foldl_drawStep_length (start_time : Nat) (h : List Sample)
    (g : List Char) :
    (h.foldl (drawStep start_time) g).length = g.length := by
  induction h generalizing g with
  | nil => rfl
  | cons p t ih => rw [List.foldl_cons, ih, drawStep_length]

theorem draw_graph_length (now : Nat) (history : List Sample) :
    (draw_graph now history).length = GRAPH_WIDTH := by
  unfold draw_graph
  split
  · simp
  · rw [foldl_drawStep_length, List.length_replicate]

/-- Characterisation of one fold over the history: column `j` of the result
holds the glyph of the last sample hitting column `j`, and is untouched
otherwise. -/
theorem foldl_drawStep_getElem? (start_time j : Nat) (hj : j < GRAPH_WIDTH)
    (h : List Sample) (g : List Char) (hg : g.length = GRAPH_WIDTH) :
    (h.foldl (drawStep start_time) g)[j]? =
      match (h.filter (hitsColumn start_time j)).getLast? with
      | some p => some p.2.glyph
      | none => g[j]? := by
  induction h using List.reverseRecOn generalizing g with
  | nil => simp
  | append_singleton t p ih =>
    rw [List.foldl_append, List.foldl_cons, List.foldl_nil, List.filter_append]
    by_cases hp : hitsColumn start_time j p = true
    · have hand : start_time ≤ p.1 ∧ (p.1 - start_time) / timePerCharNs = j := by
        simpa [hitsColumn] using hp
      have hlen : (t.foldl (drawStep start_time) g).length = GRAPH_WIDTH := by
        rw [foldl_drawStep_length]; exact hg
      have hfil : List.filter (hitsColumn start_time j) [p] = [p] := by
        simp [hp]
      rw [hfil, List.getLast?_concat]
      rw [drawStep_hit _ _ _ hand.1 (by rw [hand.2]; exact hj), hand.2]
      exact List.getElem?_set_self (by rw [hlen]; exact hj)
    · have hfil : List.filter (hitsColumn start_time j) [p] = [] := by
        simp only [List.filter_cons, List.filter_nil]
        rw [if_neg hp]
      rw [hfil, List.append_nil]
      have hstep : (drawStep start_time (t.foldl (drawStep start_time) g) p)[j]? =
          (t.foldl (drawStep start_time) g)[j]? := by
        by_cases h1 : start_time ≤ p.1
        · by_cases h2 : (p.1 - start_time) / timePerCharNs < GRAPH_WIDTH
          · rw [drawStep_hit _ _ _ h1 h2]
            refine List.getElem?_set_ne ?_
            intro hc
            exact hp (by simp [hitsColumn, h1, hc])
          · rw [drawStep_wide _ _ _ h1 h2]
        · rw [drawStep_far _ _ _ h1]
      rw [hstep, ih g hg]

theorem draw_graph_getElem? (now : Nat) (history : List Sample) (j : Nat)
    (hj : j < GRAPH_WIDTH) :
    (draw_graph now history)[j]? =
      match (history.filter (hitsColumn (now - graphHistoryNs) j)).getLast? with
      | some p => some p.2.glyph
      | none => some ' ' := by
  unfold draw_graph
  split
  · rename_i hemp
    rw [List.isEmpty_iff] at hemp
    subst hemp
    simp [List.getElem?_replicate, hj]
  · rw [foldl_drawStep_getElem? _ j hj _ _ (List.length_replicate _ _)]
    cases (history.filter (hitsColumn (now - graphHistoryNs) j)).getLast? with
    | none => simp [List.getElem?_replicate, hj]
    | some p => rfl

/- ===================== claim theorems ===================== -/

/-- C1: `classify_latency` returns Good iff the latency is present and
< 50 ms, Fair iff present and in [50 ms, 150 ms), Poor iff present and in
[150 ms, 500 ms), Timeout iff absent or ≥ 500 ms; the boundary inputs
50 ms, 150 ms and 500 ms land in the higher-latency tier. -/
theorem classify_latency_spec (d : Option Nat) :
    (classify_latency d = ConnectionStatus.Good ↔
      ∃ l, d = some l ∧ l < 50000000) ∧
    (classify_latency d = ConnectionStatus.Fair ↔
      ∃ l, d = some l ∧ 50000000 ≤ l ∧ l < 150000000) ∧
    (classify_latency d = ConnectionStatus.Poor ↔
      ∃ l, d = some l ∧ 150000000 ≤ l ∧ l < 500000000) ∧
    (classify_latency d = ConnectionStatus.Timeout ↔
      d = none ∨ ∃ l, d = some l ∧ 500000000 ≤ l) ∧
    classify_latency (some 50000000) = ConnectionStatus.Fair ∧
    classify_latency (some 150000000) = ConnectionStatus.Poor ∧
    classify_latency (some 500000000) = ConnectionStatus.Timeout := by
  cases d with
  | none =>
    refine ⟨?_, ?_, ?_, ?_, by decide, by decide, by decide⟩ <;>
      simp [classify_latency]
  | some l =>
    refine ⟨?_, ?_, ?_, ?_, by decide, by decide, by decide⟩
    · simp only [classify_latency, Option.some.injEq]
      split_ifs with h1 h2 h3 <;> constructor <;>
        first
        | (intro heq; exact absurd heq (by decide))
        | (rintro ⟨l', rfl, hb⟩; exfalso; omega)
        | (rintro ⟨l', rfl, hb1, hb2⟩; exfalso; omega)
        | (rintro ⟨l', rfl, hb⟩; rfl)
        | (rintro ⟨l', rfl, hb1, hb2⟩; rfl)
        | (intro _; exact ⟨l, rfl, by omega⟩)
    · simp only [classify_latency, Option.some.injEq]
      split_ifs with h1 h2 h3 <;> constructor <;>
        first
        | (intro heq; exact absurd heq (by decide))
        | (rintro ⟨l', rfl, hb⟩; exfalso; omega)
        | (rintro ⟨l', rfl, hb1, hb2⟩; exfalso; omega)
        | (rintro ⟨l', rfl, hb⟩; rfl)
        | (rintro ⟨l', rfl, hb1, hb2⟩; rfl)
        | (intro _; exact ⟨l, rfl, by omega⟩)
    · simp only [classify_latency, Option.some.injEq]
      split_ifs with h1 h2 h3 <;> constructor <;>
        first
        | (intro heq; exact absurd heq (by decide))
        | (rintro ⟨l', rfl, hb⟩; exfalso; omega)
        | (rintro ⟨l', rfl, hb1, hb2⟩; exfalso; omega)
        | (rintro ⟨l', rfl, hb⟩; rfl)
        | (rintro ⟨l', rfl, hb1, hb2⟩; rfl)
        | (intro _; exact ⟨l, rfl, by omega⟩)
    · simp only [classify_latency, Option.some.injEq]
      split_ifs with h1 h2 h3 <;> constructor <;>
        first
        | (intro heq; exact absurd heq (by decide))
        | (intro _; exact Or.inr ⟨l, rfl, by omega⟩)
        | (intro _; rfl)
        | (rintro (hn | ⟨l', rfl, hb⟩) <;>
            first
            | exact hn.elim
            | (exfalso; omega))

/-- C8: on an empty history buffer `draw_graph` returns exactly
`GRAPH_WIDTH` (= 60) blank characters. -/
theorem draw_graph_empty (now : Nat) :
    draw_graph now [] = List.replicate GRAPH_WIDTH ' ' ∧
    (draw_graph now []).length = 60 := by
  constructor
  · rfl
  · rfl

/-- C9: rendering is deterministic — for a fixed `now` and a fixed history
buffer, two renderings produce the same glyph sequence (the embedded
`draw_graph` is a pure function of `now` and the buffer). -/
theorem draw_graph_deterministic (now : Nat) (history : List Sample) :
    draw_graph now history = draw_graph now history := rfl

/-- C5: one iteration of the `monitor_server` loop exits the loop iff the
send on the channel failed; no probe result, history or time can cause an
exit, and a successful send always continues. -/
theorem monitorIteration_exit_iff (name : String) (history : List Sample)
    (probeResult : Option Nat) (now : Nat) (sendOk : Bool) :
    (monitorIteration name history probeResult now sendOk = MonitorStep.exit
      ↔ sendOk = false) ∧
    (sendOk = true →
      monitorIteration name history probeResult now sendOk =
        MonitorStep.cont (monitorSnapshot name history probeResult now).history) := by
  cases sendOk <;> simp [monitorIteration]

/-- Witness for C5's hypothesis: at a concrete input with a successful
send, the iteration continues with the updated history. -/
theorem monitorIteration_exit_iff_witness :
    monitorIteration "A" [] (some 30000000) 1000 true =
      MonitorStep.cont (monitorSnapshot "A" [] (some 30000000) 1000).history :=
  (monitorIteration_exit_iff "A" [] (some 30000000) 1000 true).2 rfl

/-- C6: a snapshot whose name matches no entry of the display state is
silently dropped — `applySnapshot` returns the state unchanged. -/
theorem applySnapshot_unmatched (statuses : List ServerStatus)
    (snap : ServerStatus)
    (h : ∀ s ∈ statuses, s.name ≠ snap.name) :
    applySnapshot statuses snap = statuses := by
  unfold applySnapshot
  have hnone : statuses.findIdx? (fun s => s.name == snap.name) = none := by
    rw [List.findIdx?_eq_none_iff]
    intro s hs
    simpa using h s hs
  rw [hnone]

/-- Witness for C6 at a concrete input: one entry named "B", snapshot named
"A", state unchanged. -/
theorem applySnapshot_unmatched_witness :
    applySnapshot [initialStatus "B" 0] (initialStatus "A" 5) =
      [initialStatus "B" 0] :=
  applySnapshot_unmatched [initialStatus "B" 0] (initialStatus "A" 5)
    (by intro s hs; simp [initialStatus] at hs ⊢; rw [hs]; decide)

/-- C7: when the snapshot's name matches entry `i`, `applySnapshot`
replaces that entry wholesale by the snapshot and leaves every other
entry unchanged. -/
theorem applySnapshot_matched (statuses : List ServerStatus)
    (snap : ServerStatus) (i : Nat)
    (h : statuses.findIdx? (fun s => s.name == snap.name) = some i) :
    (applySnapshot statuses snap)[i]? = some snap ∧
    ∀ j, j ≠ i → (applySnapshot statuses snap)[j]? = statuses[j]? := by
  have hi : i < statuses.length := by
    rw [List.findIdx?_eq_some_iff_getElem] at h
    exact h.1
  unfold applySnapshot
  rw [h]
  constructor
  · exact List.getElem?_set_self hi
  · intro j hj
    exact List.getElem?_set_ne (fun hc => hj hc.symm)

/-- Witness for C7 at a concrete input: two entries, snapshot matching the
second; it is replaced and the first is untouched. -/
theorem applySnapshot_matched_witness :
    (applySnapshot [initialStatus "A" 0, initialStatus "B" 0]
        (monitorSnapshot "B" [] (some 30000000) 7))[1]? =
      some (monitorSnapshot "B" [] (some 30000000) 7) ∧
    (applySnapshot [initialStatus "A" 0, initialStatus "B" 0]
        (monitorSnapshot "B" [] (some 30000000) 7))[0]? =
      some (initialStatus "A" 0) := by
  have h := applySnapshot_matched [initialStatus "A" 0, initialStatus "B" 0]
    (monitorSnapshot "B" [] (some 30000000) 7) 1 (by decide)
  exact ⟨h.1, by rw [h.2 0 (by decide)]; rfl⟩

/-- C10: every `ServerStatus` that enters the display state is internally
consistent: its `status` field equals `classify_latency` of its `latency`
field, both for the startup records and for every monitor snapshot. -/
theorem serverStatus_consistent (name : String) (now : Nat)
    (history : List Sample) (probeResult : Option Nat) :
    (initialStatus name now).status =
      classify_latency (initialStatus name now).latency ∧
    (monitorSnapshot name history probeResult now).status =
      classify_latency (monitorSnapshot name history probeResult now).latency := by
  exact ⟨rfl, rfl⟩

/- ===================== history-buffer retention (C2) ===================== -/

theorem evictOld_sublist (cutoff : Nat) (l : List Sample) :
    (evictOld cutoff l).Sublist l := by
  induction l with
  | nil => exact List.Sublist.refl _
  | cons q rest ih =>
    obtain ⟨ts, s⟩ := q
    simp only [evictOld]
    split
    · exact ih.trans (List.sublist_cons_self _ _)
    · exact List.Sublist.refl _

theorem evictOld_ge (cutoff : Nat) (l : List Sample)
    (hs : List.Pairwise (fun a b : Sample => a.1 ≤ b.1) l) :
    ∀ p ∈ evictOld cutoff l, cutoff ≤ p.1 := by
  induction l with
  | nil => intro p hp; simp [evictOld] at hp
  | cons q rest ih =>
    obtain ⟨ts, s⟩ := q
    rw [List.pairwise_cons] at hs
    intro p hp
    simp only [evictOld] at hp
    split at hp
    · exact ih hs.2 p hp
    · rename_i hts
      rcases List.mem_cons.mp hp with rfl | hmem
      · exact Nat.le_of_not_lt hts
      · exact le_trans (Nat.le_of_not_lt hts) (hs.1 p hmem)

theorem foldl_appendSample_sublist (window : Nat) (l : List Sample) :
    ∀ acc : List Sample,
      (l.foldl (fun buf q => appendSample window buf q.1 q.2) acc).Sublist
        (acc ++ l) := by
  induction l with
  | nil => intro acc; simpa using List.Sublist.refl acc
  | cons q t ih =>
    intro acc
    rw [List.foldl_cons]
    have h1 := ih (appendSample window acc q.1 q.2)
    have h2 : (appendSample window acc q.1 q.2).Sublist (acc ++ [q]) :=
      evictOld_sublist _ _
    have h3 := h2.append_right t
    have h4 := h1.trans h3
    simpa [List.append_assoc] using h4

theorem runAppends_sublist (window : Nat) (apps : List Sample) :
    (runAppends window apps).Sublist apps := by
  have h := foldl_appendSample_sublist window apps []
  simpa [runAppends] using h

/-- C2: for any sequence of appends to the history buffer with the 10-minute
retention window, with non-decreasing timestamps (each append no earlier
than everything already in the buffer), immediately after the final
append-and-evict step every remaining sample has a timestamp at least the
append's timestamp minus the window.  Applying this to every prefix of the
append sequence gives the invariant after each step. -/
theorem history_retention (apps : List Sample) (t : Nat) (s : ConnectionStatus)
    (hsorted : List.Pairwise (fun a b : Sample => a.1 ≤ b.1) (apps ++ [(t, s)])) :
    ∀ p ∈ runAppends graphHistoryNs (apps ++ [(t, s)]),
      t - graphHistoryNs ≤ p.1 := by
  have hrw : runAppends graphHistoryNs (apps ++ [(t, s)]) =
      appendSample graphHistoryNs (runAppends graphHistoryNs apps) t s := by
    unfold runAppends
    rw [List.foldl_append, List.foldl_cons, List.foldl_nil]
  rw [hrw]
  rw [List.pairwise_append] at hsorted
  have hbase_sorted : List.Pairwise (fun a b : Sample => a.1 ≤ b.1)
      (runAppends graphHistoryNs apps) :=
    List.Pairwise.sublist (runAppends_sublist _ _) hsorted.1
  have hle : ∀ a ∈ runAppends graphHistoryNs apps, a.1 ≤ t := by
    intro a ha
    have hmem : a ∈ apps := (runAppends_sublist _ _).subset ha
    exact hsorted.2.2 a hmem (t, s) (List.mem_singleton_self _)
  have hpair : List.Pairwise (fun a b : Sample => a.1 ≤ b.1)
      (runAppends graphHistoryNs apps ++ [(t, s)]) := by
    rw [List.pairwise_append]
    refine ⟨hbase_sorted, List.pairwise_singleton _ _, ?_⟩
    intro a ha b hb
    rcases List.mem_singleton.mp hb with rfl
    exact hle a ha
  exact evictOld_ge _ _ hpair

/-- Witness for C2 at a concrete input: appends at times 0 and 5, every
surviving sample's timestamp is at least 5 minus the window. -/
theorem history_retention_witness :
    (5 : Nat) - graphHistoryNs ≤ ((5 : Nat), ConnectionStatus.Fair).1 :=
  history_retention [(0, ConnectionStatus.Good)] 5 ConnectionStatus.Fair
    (by decide) ((5 : Nat), ConnectionStatus.Fair) (by decide)

/- ===================== graph placement (C3, C4) ===================== -/

theorem draw_graph_eq_foldl (now : Nat) (h : List Sample) :
    draw_graph now h =
      h.foldl (drawStep (now - graphHistoryNs))
        (List.replicate GRAPH_WIDTH ' ') := by
  unfold draw_graph
  split
  · rename_i he
    rw [List.isEmpty_iff] at he
    subst he
    rfl
  · rfl

/-- C3: a sample with timestamp at least `start_time = now − window` is
drawn at column `floor((timestamp − start_time) / time_per_column)`; when
that column equals or exceeds the width the sample is dropped and the
output is unchanged, and a sample before `start_time` is skipped. -/
theorem draw_graph_column_placement (now ts : Nat) (s : ConnectionStatus)
    (h : List Sample) :
    (now - graphHistoryNs ≤ ts →
      (ts - (now - graphHistoryNs)) / timePerCharNs < GRAPH_WIDTH →
      draw_graph now (h ++ [(ts, s)]) =
        (draw_graph now h).set
          ((ts - (now - graphHistoryNs)) / timePerCharNs) s.glyph) ∧
    (now - graphHistoryNs ≤ ts →
      GRAPH_WIDTH ≤ (ts - (now - graphHistoryNs)) / timePerCharNs →
      draw_graph now (h ++ [(ts, s)]) = draw_graph now h) ∧
    (ts < now - graphHistoryNs →
      draw_graph now (h ++ [(ts, s)]) = draw_graph now h) := by
  refine ⟨?_, ?_, ?_⟩
  · intro h1 h2
    rw [draw_graph_eq_foldl, draw_graph_eq_foldl, List.foldl_append,
      List.foldl_cons, List.foldl_nil]
    exact drawStep_hit _ _ _ h1 h2
  · intro h1 h2
    rw [draw_graph_eq_foldl, draw_graph_eq_foldl, List.foldl_append,
      List.foldl_cons, List.foldl_nil]
    exact drawStep_wide _ _ _ h1 (Nat.not_lt.mpr h2)
  · intro h1
    rw [draw_graph_eq_foldl, draw_graph_eq_foldl, List.foldl_append,
      List.foldl_cons, List.foldl_nil]
    exact drawStep_far _ _ _ (Nat.not_le.mpr h1)

/-- Witness for C3 at a concrete input: a sample exactly at the right edge
of the window (column = width) is dropped and changes nothing. -/
theorem draw_graph_column_placement_witness :
    draw_graph graphHistoryNs
        ([(0, ConnectionStatus.Good)] ++ [(graphHistoryNs, ConnectionStatus.Fair)]) =
      draw_graph graphHistoryNs [(0, ConnectionStatus.Good)] :=
  (draw_graph_column_placement graphHistoryNs graphHistoryNs
    ConnectionStatus.Fair [(0, ConnectionStatus.Good)]).2.1 (by decide) (by decide)

/-- C4: for a history with strictly increasing timestamps, when several
qualifying samples map to the same column, the column shows the glyph of
the latest such sample (last write wins per column). -/
theorem draw_graph_last_write_wins (now : Nat) (h : List Sample) (j : Nat)
    (hj : j < GRAPH_WIDTH)
    (hsorted : List.Pairwise (fun a b : Sample => a.1 < b.1) h)
    (q : Sample) (hq : q ∈ h)
    (hhit : hitsColumn (now - graphHistoryNs) j q = true)
    (hlatest : ∀ r ∈ h, hitsColumn (now - graphHistoryNs) j r = true → r.1 ≤ q.1) :
    (draw_graph now h)[j]? = some q.2.glyph := by
  set F := h.filter (hitsColumn (now - graphHistoryNs) j) with hF
  have hqF : q ∈ F := List.mem_filter.mpr ⟨hq, hhit⟩
  have hFne : F ≠ [] := by
    intro hc
    rw [hc] at hqF
    exact List.not_mem_nil q hqF
  have hFsorted : List.Pairwise (fun a b : Sample => a.1 < b.1) F :=
    List.Pairwise.sublist (List.filter_sublist _) hsorted
  have hlast_mem : F.getLast hFne ∈ F := List.getLast_mem hFne
  have hlast_le : (F.getLast hFne).1 ≤ q.1 := by
    have hmem : F.getLast hFne ∈ h := (List.mem_filter.mp hlast_mem).1
    have hhit2 : hitsColumn (now - graphHistoryNs) j (F.getLast hFne) = true :=
      (List.mem_filter.mp hlast_mem).2
    exact hlatest _ hmem hhit2
  have hsplit := List.dropLast_append_getLast hFne
  have hq_eq : q = F.getLast hFne := by
    have hqF2 := hqF
    rw [← hsplit] at hqF2
    rcases List.mem_append.mp hqF2 with hdrop | hsing
    · have hpw := hFsorted
      rw [← hsplit, List.pairwise_append] at hpw
      have hlt := hpw.2.2 q hdrop (F.getLast hFne) (List.mem_singleton_self _)
      exact absurd hlt (Nat.not_lt.mpr hlast_le)
    · exact List.mem_singleton.mp hsing
  rw [draw_graph_getElem? now h j hj, ← hF,
    List.getLast?_eq_getLast F hFne, ← hq_eq]

/-- Witness for C4 at the spec's own example: two samples 1 s apart inside
one 10-second bucket; column 0 shows the later sample's glyph. -/
theorem draw_graph_last_write_wins_witness :
    (draw_graph graphHistoryNs
        [(0, ConnectionStatus.Good), (1000000000, ConnectionStatus.Poor)])[0]? =
      some '◑' :=
  draw_graph_last_write_wins graphHistoryNs
    [(0, ConnectionStatus.Good), (1000000000, ConnectionStatus.Poor)] 0
    (by decide) (by decide) ((1000000000 : Nat), ConnectionStatus.Poor)
    (by decide) (by decide) (by decide)
